import Mathlib

/-!
Verification of mcp-remote-deno core logic.

This file gives a shallow embedding, in Lean 4, of the correctness-relevant
logic of the mcp-remote-deno repository:

* the bidirectional transport proxy `mcpProxy` (src/lib/utils.ts),
* the lockfile validation `isLockValid` / `isPidRunning` (src/lib/coordination.ts),
* the OAuth callback server with long polling
  `setupOAuthCallbackServerWithLongPoll` (src/lib/utils.ts),
* the credential store operations (src/lib/mcp-auth-config.ts) and the
  `NodeOAuthClientProvider` persistence methods
  (src/lib/node-oauth-client-provider.ts),
* the command-line validation in `parseCommandLineArgs` (src/lib/utils.ts),
* the leader/follower decision in `coordinateAuth` (src/lib/coordination.ts).

Asynchronous effects (process liveness probes, HTTP fetches, promise
resolution) are modelled by passing their outcomes as explicit values and by
event traces processed with a step function; JavaScript promise resolution of
pending long-poll waiters is modelled as an atomic broadcast at the resolve
point, which is faithful because promise continuations are microtasks that run
before any pending timer macrotask.
-/

/-! ## Transport proxy (`mcpProxy`, src/lib/utils.ts lines 62-108)

The proxy installs `onclose` handlers on both transports guarded by two
boolean latches.  We model the two latches and count the `close()` calls the
proxy issues on each transport.  An external event is the firing of a
transport's `onclose` handler; a transport fires `onclose` at most once
(including a close induced by the proxy's own `close()` call), which the
theorems take as a hypothesis on the trace. -/

/-- An `onclose` event fired by one of the two proxied transports. -/
inductive TransportEvent where
  | clientOnClose
  | serverOnClose
deriving DecidableEq, Repr

/-- The mutable state captured by the closures installed by `mcpProxy`:
the two boolean latches, plus instrumentation counting how many times the
proxy has called `close()` on each transport. -/
structure ProxyState where
  transportToClientClosed : Bool
  transportToServerClosed : Bool
  closeCallsToClient : Nat
  closeCallsToServer : Nat
deriving DecidableEq, Repr

/-- Initial state of `mcpProxy`: both latches false, no close calls issued. -/
def mcpProxyInit : ProxyState :=
  { transportToClientClosed := false
    transportToServerClosed := false
    closeCallsToClient := 0
    closeCallsToServer := 0 }

/-- One `onclose` handler invocation, translated from `mcpProxy`:

`transportToClient.onclose` returns early when `transportToServerClosed` is
set; otherwise it sets `transportToClientClosed` and calls
`transportToServer.close()`.  Symmetrically for `transportToServer.onclose`. -/
def mcpProxyStep (s : ProxyState) (e : TransportEvent) : ProxyState :=
  match e with
  | .clientOnClose =>
      if s.transportToServerClosed then s
      else { s with
              transportToClientClosed := true
              closeCallsToServer := s.closeCallsToServer + 1 }
  | .serverOnClose =>
      if s.transportToClientClosed then s
      else { s with
              transportToServerClosed := true
              closeCallsToClient := s.closeCallsToClient + 1 }

/-- Run the proxy handlers over a serialized trace of `onclose` events. -/
def mcpProxyRun (t : List TransportEvent) : ProxyState :=
  t.foldl mcpProxyStep mcpProxyInit

/-! ## Lock validation (`isLockValid`, src/lib/coordination.ts lines 92-124) -/

/-- Lockfile data structure, from src/lib/mcp-auth-config.ts. -/
structure LockfileData where
  pid : Int
  port : Int
  timestamp : Int
deriving DecidableEq, Repr

/-- Maximum lock age: 30 minutes in milliseconds, from `isLockValid`. -/
def MAX_LOCK_AGE : Int := 30 * 60 * 1000

/-- `isPidRunning` from src/lib/coordination.ts: runs an OS liveness probe
(`kill -0` or `tasklist`) and returns its boolean outcome; any failure to run
the probe is caught and yields `false`.  The probe outcome is passed in as
`probeSuccess` (`none` models the probe itself erroring). -/
def isPidRunning (probeSuccess : Option Bool) : Bool :=
  match probeSuccess with
  | some success => success
  | none => false

/-- `isLockValid` from src/lib/coordination.ts, with the two asynchronous
sub-results passed in explicitly: `now` is `Date.now()`, `probeSuccess` is the
liveness probe outcome consumed by `isPidRunning`, and `fetchStatus` is the
outcome of `GET http://127.0.0.1:{port}/wait-for-auth?poll=false` under a 1
second abort timer (`none` models a timeout, a connection error or an aborted
request, which the source catches and maps to `false`). -/
def isLockValid (now : Int) (lockData : LockfileData)
    (probeSuccess : Option Bool) (fetchStatus : Option Int) : Bool :=
  if now - lockData.timestamp > MAX_LOCK_AGE then
    false
  else if !(isPidRunning probeSuccess) then
    false
  else
    match fetchStatus with
    | none => false
    | some status => status == 200 || status == 202

/-! ## OAuth callback server with long polling
(`setupOAuthCallbackServerWithLongPoll`, src/lib/utils.ts lines 213-303)

The server keeps `authCode` (initially null), an `authCompletedPromise`
resolved exactly once by `authCompletedResolve`, and two routes:
`/wait-for-auth` and the OAuth callback path.  We model the in-memory state,
the serialized handler invocations and timer firings as an event trace, and
record every HTTP response the server sends.  Resolving the promise releases
every pending long-poll waiter: their continuations are promise microtasks
that run before any pending 30-second timer macrotask, so the release is
modelled as an atomic broadcast at the resolve point. -/

/-- One HTTP response sent by the callback server: the request it answers,
its status code and its body. -/
structure OAuthCallbackResponse where
  reqId : Nat
  status : Nat
  body : String
deriving DecidableEq, Repr

/-- In-memory state of one callback server instance:
`authCode` as in the source; `promiseResolved` is the value
`authCompletedPromise` has been resolved with (`none` while unresolved; a
promise resolves at most once, so later `authCompletedResolve` calls leave
it unchanged); `pending` are the request ids of long-poll `/wait-for-auth`
requests still awaiting the promise or their 30-second timer; `responses`
is the ordered log of responses sent; `emitCount` counts the
`events.emit("auth-code-received")` calls. -/
structure CallbackServerState where
  authCode : Option String
  promiseResolved : Option String
  pending : List Nat
  responses : List OAuthCallbackResponse
  emitCount : Nat
deriving DecidableEq, Repr

/-- State of a freshly created callback server. -/
def callbackServerInit : CallbackServerState :=
  { authCode := none
    promiseResolved := none
    pending := []
    responses := []
    emitCount := 0 }

/-- `res.status(status).send(body)` on a response builder whose headers have
not been sent: appends one response to the log. -/
def sendResponse (s : CallbackServerState) (reqId status : Nat) (body : String) :
    CallbackServerState :=
  { s with responses := s.responses ++ [⟨reqId, status, body⟩] }

/-- Body sent with status 200 by `/wait-for-auth`. -/
def bodyAuthCompleted : String := "Authentication completed"

/-- Body sent with status 202 by `/wait-for-auth`. -/
def bodyAuthInProgress : String := "Authentication in progress"

/-- Success page sent by the OAuth callback route. -/
def bodyAuthSuccess : String :=
  "Authorization successful! You may close this window and return to the CLI."

/-- Error body sent by the OAuth callback route when no code is present. -/
def bodyNoCode : String := "Error: No authorization code received"

/-- Serialized events handled by the callback server: a `/wait-for-auth`
request (`pollFalse` records whether the query string carried the literal
`poll=false`), an OAuth callback request carrying an optional `code` query
parameter (absent models a missing parameter), and the firing of the
30-second long-poll timer of an earlier request. -/
inductive CallbackEvent where
  | waitForAuth (reqId : Nat) (pollFalse : Bool)
  | oauthCallback (reqId : Nat) (code : Option String)
  | longPollTimeout (reqId : Nat)
deriving DecidableEq, Repr

/-- One handler or timer invocation, translated from
`setupOAuthCallbackServerWithLongPoll`:

* `/wait-for-auth`: if `authCode` is set, respond 200; else if the query had
  `poll=false`, respond 202; else register a long poll (start the 30-second
  timer and subscribe to `authCompletedPromise`).
* 30-second timer: if the request has not been answered, respond 202.
* callback route: a missing or empty `code` (both falsy in JavaScript) gets
  a 400 error and nothing else happens; otherwise the handler sets
  `authCode := code`, calls `authCompletedResolve(code)` (effective only on
  the first call), sends the success page, emits `auth-code-received`, and
  the promise resolution then answers every pending long poll with 200
  (their timers are cleared, i.e. they leave `pending`). -/
def callbackServerStep (s : CallbackServerState) (e : CallbackEvent) :
    CallbackServerState :=
  match e with
  | .waitForAuth reqId pollFalse =>
      match s.authCode with
      | some _ => sendResponse s reqId 200 bodyAuthCompleted
      | none =>
          if pollFalse then sendResponse s reqId 202 bodyAuthInProgress
          else { s with pending := s.pending ++ [reqId] }
  | .longPollTimeout reqId =>
      if s.pending.contains reqId then
        sendResponse { s with pending := s.pending.erase reqId }
          reqId 202 bodyAuthInProgress
      else s
  | .oauthCallback reqId code =>
      match code with
      | none => sendResponse s reqId 400 bodyNoCode
      | some c =>
          if c = "" then sendResponse s reqId 400 bodyNoCode
          else
            let s1 := { s with
              authCode := some c
              promiseResolved :=
                match s.promiseResolved with
                | some v => some v
                | none => some c }
            let s2 := sendResponse s1 reqId 200 bodyAuthSuccess
            let s3 := { s2 with emitCount := s2.emitCount + 1 }
            { s3 with
              responses := s3.responses ++
                s3.pending.map (fun w => ⟨w, 200, bodyAuthCompleted⟩)
              pending := [] }

/-- Run one callback server over a serialized trace of events. -/
def callbackServerRun (t : List CallbackEvent) : CallbackServerState :=
  t.foldl callbackServerStep callbackServerInit

/-! ## Credential store (src/lib/mcp-auth-config.ts) and provider
persistence (src/lib/node-oauth-client-provider.ts)

The store persists JSON and text blobs keyed by
`{serverUrlHash}_{filename}` inside one configuration directory.  The
on-disk text encoding of JSON is an external collaborator (the spec excludes
the serialization format beyond its schema), so a JSON file is modelled as
holding the JSON value written; the constant configuration directory prefix
common to every path is dropped. -/

/-- A JSON value, the unit of storage for `writeJsonFile`/`readJsonFile`. -/
inductive JsonValue where
  | null
  | bool (b : Bool)
  | num (n : Int)
  | str (s : String)
  | arr (xs : List JsonValue)
  | obj (fields : List (String × JsonValue))

/-- Contents of one file in the configuration directory. -/
inductive FileContent where
  | jsonFile (v : JsonValue)
  | textFile (s : String)

/-- `getConfigFilePath` from src/lib/mcp-auth-config.ts:
`{serverUrlHash}_{filename}` (the configuration directory prefix, constant
during a run, is dropped). -/
def getConfigFilePath (serverUrlHash filename : String) : String :=
  serverUrlHash ++ "_" ++ filename

/-- The configuration directory: newest write first; a newer entry for the
same path shadows older ones (file overwrite). -/
structure ConfigStore where
  files : List (String × FileContent)

/-- Write (create or overwrite) a file. -/
def fsWrite (store : ConfigStore) (path : String) (content : FileContent) :
    ConfigStore :=
  { files := (path, content) :: store.files }

/-- Read a file: `none` is file-not-found. -/
def fsRead (store : ConfigStore) (path : String) : Option FileContent :=
  (store.files.find? (fun kv => kv.1 == path)).map (fun kv => kv.2)

/-- `writeJsonFile` from src/lib/mcp-auth-config.ts (the directory is
created lazily; write errors are modelled as absent). -/
def writeJsonFile (store : ConfigStore) (serverUrlHash filename : String)
    (data : JsonValue) : ConfigStore :=
  fsWrite store (getConfigFilePath serverUrlHash filename) (FileContent.jsonFile data)

/-- `readJsonFile` from src/lib/mcp-auth-config.ts: a missing file, a file
that fails to parse against the schema, or any read error all yield
`undefined` (here `none`); otherwise the schema-validated value. -/
def readJsonFile {α : Type} (store : ConfigStore) (serverUrlHash filename : String)
    (schemaParse : JsonValue → Option α) : Option α :=
  match fsRead store (getConfigFilePath serverUrlHash filename) with
  | some (FileContent.jsonFile v) => schemaParse v
  | _ => none

/-- `writeTextFile` from src/lib/mcp-auth-config.ts. -/
def writeTextFile (store : ConfigStore) (serverUrlHash filename text : String) :
    ConfigStore :=
  fsWrite store (getConfigFilePath serverUrlHash filename) (FileContent.textFile text)

/-- `readTextFile` from src/lib/mcp-auth-config.ts: returns the file
contents, and throws `errorMessage` (or a generic message) when the read
fails, e.g. when the file does not exist. -/
def readTextFile (store : ConfigStore) (serverUrlHash filename : String)
    (errorMessage : Option String) : Except String String :=
  match fsRead store (getConfigFilePath serverUrlHash filename) with
  | some (FileContent.textFile s) => Except.ok s
  | _ => Except.error (errorMessage.getD ("Error reading " ++ filename))

/-- `OAuthTokens`, the shape accepted by the SDK `OAuthTokensSchema`
(external collaborator; fields per the spec TokenSet and the SDK schema). -/
structure OAuthTokens where
  access_token : String
  token_type : String
  expires_in : Option Int
  scope : Option String
  refresh_token : Option String
deriving DecidableEq, Repr

/-- `OAuthClientInformation`, the shape accepted by the SDK
`OAuthClientInformationSchema` (external collaborator). -/
structure OAuthClientInformation where
  client_id : String
  client_secret : Option String
  client_id_issued_at : Option Int
  client_secret_expires_at : Option Int
deriving DecidableEq, Repr

/-- Look a key up in a JSON object. -/
def JsonValue.getField (v : JsonValue) (key : String) : Option JsonValue :=
  match v with
  | .obj fields => (fields.find? (fun kv => kv.1 == key)).map (fun kv => kv.2)
  | _ => none

/-- Schema helper: accept a JSON string. -/
def JsonValue.asString : JsonValue → Option String
  | .str s => some s
  | _ => none

/-- Schema helper: accept a JSON number. -/
def JsonValue.asNum : JsonValue → Option Int
  | .num n => some n
  | _ => none

/-- Schema helper for optional fields: an absent field is accepted as
`none`; a present field must satisfy the field schema. -/
def parseOptionalField {α : Type} (field : Option JsonValue)
    (fieldParse : JsonValue → Option α) : Option (Option α) :=
  match field with
  | none => some none
  | some j => (fieldParse j).map some

/-- `JSON.stringify` of an `OAuthTokens` object at the value level:
`undefined` optional fields are omitted. -/
def encodeOAuthTokens (t : OAuthTokens) : JsonValue :=
  JsonValue.obj
    ([("access_token", JsonValue.str t.access_token),
      ("token_type", JsonValue.str t.token_type)] ++
     (match t.expires_in with
      | some n => [("expires_in", JsonValue.num n)]
      | none => []) ++
     (match t.scope with
      | some s => [("scope", JsonValue.str s)]
      | none => []) ++
     (match t.refresh_token with
      | some s => [("refresh_token", JsonValue.str s)]
      | none => []))

/-- The SDK `OAuthTokensSchema.parseAsync` at the value level:
`access_token` and `token_type` are required strings, the rest optional. -/
def parseOAuthTokens (v : JsonValue) : Option OAuthTokens := do
  let a ← (v.getField ("access_token")).bind JsonValue.asString
  let ty ← (v.getField ("token_type")).bind JsonValue.asString
  let ei ← parseOptionalField (v.getField ("expires_in")) JsonValue.asNum
  let sc ← parseOptionalField (v.getField ("scope")) JsonValue.asString
  let rt ← parseOptionalField (v.getField ("refresh_token")) JsonValue.asString
  pure ⟨a, ty, ei, sc, rt⟩

/-- `JSON.stringify` of an `OAuthClientInformation` object at the value
level. -/
def encodeOAuthClientInformation (ci : OAuthClientInformation) : JsonValue :=
  JsonValue.obj
    ([("client_id", JsonValue.str ci.client_id)] ++
     (match ci.client_secret with
      | some s => [("client_secret", JsonValue.str s)]
      | none => []) ++
     (match ci.client_id_issued_at with
      | some n => [("client_id_issued_at", JsonValue.num n)]
      | none => []) ++
     (match ci.client_secret_expires_at with
      | some n => [("client_secret_expires_at", JsonValue.num n)]
      | none => []))

/-- The SDK `OAuthClientInformationSchema.parseAsync` at the value level:
`client_id` is a required string, the rest optional. -/
def parseOAuthClientInformation (v : JsonValue) : Option OAuthClientInformation := do
  let cid ← (v.getField ("client_id")).bind JsonValue.asString
  let cs ← parseOptionalField (v.getField ("client_secret")) JsonValue.asString
  let ia ← parseOptionalField (v.getField ("client_id_issued_at")) JsonValue.asNum
  let ea ← parseOptionalField (v.getField ("client_secret_expires_at")) JsonValue.asNum
  pure ⟨cid, cs, ia, ea⟩

/-- `NodeOAuthClientProvider.tokens()`: read and schema-validate
`tokens.json`. -/
def tokens (store : ConfigStore) (serverUrlHash : String) : Option OAuthTokens :=
  readJsonFile store serverUrlHash ("tokens.json") parseOAuthTokens

/-- `NodeOAuthClientProvider.saveTokens()`: write `tokens.json`. -/
def saveTokens (store : ConfigStore) (serverUrlHash : String) (t : OAuthTokens) :
    ConfigStore :=
  writeJsonFile store serverUrlHash ("tokens.json") (encodeOAuthTokens t)

/-- `NodeOAuthClientProvider.clientInformation()`: read and schema-validate
`client_info.json`. -/
def clientInformation (store : ConfigStore) (serverUrlHash : String) :
    Option OAuthClientInformation :=
  readJsonFile store serverUrlHash ("client_info.json") parseOAuthClientInformation

/-- `NodeOAuthClientProvider.saveClientInformation()`: write
`client_info.json`. -/
def saveClientInformation (store : ConfigStore) (serverUrlHash : String)
    (ci : OAuthClientInformation) : ConfigStore :=
  writeJsonFile store serverUrlHash ("client_info.json")
    (encodeOAuthClientInformation ci)

/-- `NodeOAuthClientProvider.codeVerifier()`: read `code_verifier.txt`,
raising the distinct message when the read fails. -/
def codeVerifier (store : ConfigStore) (serverUrlHash : String) :
    Except String String :=
  readTextFile store serverUrlHash ("code_verifier.txt")
    (some ("No code verifier saved for session"))

/-- `NodeOAuthClientProvider.saveCodeVerifier()`: write
`code_verifier.txt`. -/
def saveCodeVerifier (store : ConfigStore) (serverUrlHash codeVerifierValue : String) :
    ConfigStore :=
  writeTextFile store serverUrlHash ("code_verifier.txt") codeVerifierValue

/-! ## Command-line parsing (`parseCommandLineArgs`, src/lib/utils.ts
lines 417-512)

Only the pure validation logic is modelled: the help check, the
`--header` extraction (with the `forEach`/`splice` interplay of the source:
`forEach` visits the indices of the original length that still exist after
each splice), the missing-URL check, URL validation and the port-number
check.  The later steps (probing for a free callback port, environment
substitution in header values) are asynchronous or environment-dependent
and happen only after validation has passed.  The platform URL parser
(`new URL`) is an external collaborator; `parseUrl` models the fragment of
WHATWG parsing relevant here: `scheme://host[:port][/...]` with scheme and
hostname lowercased, bracketed IPv6 hosts kept with their brackets. -/

/-- Split a character list at the first occurrence of `sep`, returning the
parts before and after it; `none` when `sep` does not occur. -/
def breakOnSeq (sep : List Char) : List Char → Option (List Char × List Char)
  | [] => none
  | c :: rest =>
      if sep.isPrefixOf (c :: rest) then some ([], (c :: rest).drop sep.length)
      else
        match breakOnSeq sep rest with
        | some (pre, post) => some (c :: pre, post)
        | none => none

/-- ASCII lowercasing of one character. -/
def asciiLowerChar (ch : Char) : Char :=
  if 'A' ≤ ch && ch ≤ 'Z' then Char.ofNat (ch.toNat + 32) else ch

/-- ASCII lowercasing of a string, as the URL parser normalizes scheme and
hostname. -/
def asciiLower (s : String) : String :=
  String.mk (s.data.map asciiLowerChar)

/-- A header name character per the source regex class `[A-Za-z0-9_-]`. -/
def isHeaderNameChar (ch : Char) : Bool :=
  ch.isAlphanum || ch == '_' || ch == '-'

/-- The source regex match `^([A-Za-z0-9_-]+):(.*)$` on a `--header`
argument: a nonempty run of name characters, a colon, then the value. -/
def parseHeaderArg (value : String) : Option (String × String) :=
  let cs := value.data
  let name := cs.takeWhile isHeaderNameChar
  let rest := cs.drop name.length
  match rest with
  | ':' :: valueChars =>
      if name.isEmpty then none
      else some (String.mk name, String.mk valueChars)
  | _ => none

/-- The `args.forEach` loop of `parseCommandLineArgs` that collects
`--header` pairs and splices them out of `args`: `len` is the length
captured when the loop starts, `i` the current index, and the fuel is
structural so the definition evaluates by `rfl`.  Indices spliced past the
current length are skipped, exactly as `forEach` skips deleted indices; a
malformed header value is warned about and skipped but still spliced. -/
def extractHeadersAux (len : Nat) :
    Nat → Nat → List String → List (String × String) →
      List String × List (String × String)
  | 0, _, args, headers => (args, headers)
  | fuel + 1, i, args, headers =>
      if i ≥ len then (args, headers)
      else
        match args.get? i with
        | none => extractHeadersAux len fuel (i + 1) args headers
        | some arg =>
            if arg == "--header" && i + 1 < args.length then
              let value := (args.get? (i + 1)).getD ""
              let headers1 :=
                match parseHeaderArg value with
                | some kv => headers ++ [kv]
                | none => headers
              extractHeadersAux len fuel (i + 1)
                (args.take i ++ args.drop (i + 2)) headers1
            else
              extractHeadersAux len fuel (i + 1) args headers

/-- Collect the `--header` name/value pairs and remove them from the
argument list. -/
def extractHeaders (args : List String) :
    List String × List (String × String) :=
  extractHeadersAux args.length args.length 0 args []

/-- `Number.parseInt(s, 10)`: skip leading whitespace, optional sign, then
the longest digit run; no digits means NaN, modelled as `none`. -/
def parseIntJs (s : String) : Option Int :=
  let cs := s.data.dropWhile (fun ch => ch.isWhitespace)
  let signedTail :=
    match cs with
    | '-' :: rest => (true, rest)
    | '+' :: rest => (false, rest)
    | _ => (false, cs)
  let digits := signedTail.2.takeWhile (fun ch => ch.isDigit)
  if digits.isEmpty then none
  else
    let n : Nat := digits.foldl (fun n ch => n * 10 + (ch.toNat - 48)) 0
    some (if signedTail.1 then -(n : Int) else (n : Int))

/-- The scheme and hostname of a parsed URL, as normalized (lowercased) by
the platform URL parser. -/
structure UrlParts where
  scheme : String
  hostname : String
deriving DecidableEq, Repr

/-- Simplified model of `new URL(serverUrl)`: `scheme://host[:port][/...]`;
anything else is a parse failure (the `TypeError` branch of the source).
The scheme is kept without its trailing colon, so the source comparison
`url.protocol === "https:"` appears here as `scheme == "https"`. -/
def parseUrl (s : String) : Option UrlParts :=
  match breakOnSeq ([':', '/', '/']) s.data with
  | none => none
  | some (schemeChars, restChars) =>
      if schemeChars.isEmpty then none
      else
        let hostPort := restChars.takeWhile (fun ch => ch != '/')
        let hostname :=
          match hostPort with
          | '[' :: _ => (hostPort.takeWhile (fun ch => ch != ']')) ++ [']']
          | _ => hostPort.takeWhile (fun ch => ch != ':')
        if hostname.isEmpty then none
        else
          some { scheme := asciiLower (String.mk schemeChars)
                 hostname := asciiLower (String.mk hostname) }

/-- The ways `parseCommandLineArgs` terminates the process instead of
returning: `--help` exits 0; the others log an error and throw
`Process exit called` (exit non-zero), before any network or
callback-server activity. -/
inductive CommandLineError where
  | helpExit
  | missingUrl
  | invalidUrl
  | disallowedHttp
  | invalidPort
deriving DecidableEq, Repr

/-- The validated result of `parseCommandLineArgs` (before the callback
port is resolved against the network and before environment substitution in
header values). -/
structure ParsedCommandLine where
  serverUrl : String
  specifiedPort : Option Int
  headers : List (String × String)
deriving DecidableEq, Repr

/-- `parseCommandLineArgs` from src/lib/utils.ts, validation part: help
flags, `--header` extraction, required server URL (`!serverUrl` also
rejects an empty first argument), URL parse, the HTTPS/localhost/
`--allow-http` rule, then the NaN port check.  `specifiedPort` reflects
`args[1] ? Number.parseInt(args[1], 10) : undefined` — a missing or empty
(falsy) second argument yields no port rather than a NaN error. -/
def parseCommandLineArgs (args : List String) :
    Except CommandLineError ParsedCommandLine :=
  if args.contains ("--help") || args.contains ("-h") then
    Except.error CommandLineError.helpExit
  else
    let extracted := extractHeaders args
    let args2 := extracted.1
    let headers := extracted.2
    let serverUrl := args2.headD ""
    let specifiedPort : Option (Option Int) :=
      match args2.get? 1 with
      | some a => if a == "" then none else some (parseIntJs a)
      | none => none
    let allowHttp := args2.contains ("--allow-http")
    if serverUrl == "" then Except.error CommandLineError.missingUrl
    else
      match parseUrl serverUrl with
      | none => Except.error CommandLineError.invalidUrl
      | some url =>
          let isLocalhost :=
            (url.hostname == "localhost" || url.hostname == "127.0.0.1") &&
              url.scheme == "http"
          if !(url.scheme == "https" || isLocalhost || allowHttp) then
            Except.error CommandLineError.disallowedHttp
          else
            match specifiedPort with
            | some none => Except.error CommandLineError.invalidPort
            | some (some p) =>
                Except.ok { serverUrl := serverUrl, specifiedPort := some p,
                            headers := headers }
            | none =>
                Except.ok { serverUrl := serverUrl, specifiedPort := none,
                            headers := headers }

/-! ## Authentication coordination (`coordinateAuth`,
src/lib/coordination.ts lines 167-280)

The leader/follower decision is modelled with its asynchronous sub-results
passed in: the lockfile contents read by `checkLockfile`, the inputs of
`isLockValid`, and the outcome of `waitForAuthentication` (which catches
its own errors and returns a boolean).  The promise returned by a
`waitForAuthCode` function is described by its resolution behavior. -/

/-- How a `waitForAuthCode` promise can behave: the real implementation
resolves from the stored code or the `auth-code-received` event; the dummy
of the secondary instance is `new Promise(() => {})`, whose executor never
calls `resolve`, so it is never fulfilled — a caller awaiting it blocks
forever. -/
inductive PromiseBehavior where
  | resolvesFromEvents
  | neverResolves
deriving DecidableEq, Repr

/-- The operating system reported by `Deno.build.os` (values relevant to
the branches of the source). -/
inductive OperatingSystem where
  | windows
  | darwin
  | linux
deriving DecidableEq, Repr

/-- What `coordinateAuth` returns: whether the server is the dummy server
of a secondary instance, the behavior of the returned `waitForAuthCode`,
and the `skipBrowserAuth` flag. -/
structure CoordinateAuthResult where
  usesDummyServer : Bool
  waitForAuthCodeBehavior : PromiseBehavior
  skipBrowserAuth : Bool
deriving DecidableEq, Repr

/-- `coordinateAuth` from src/lib/coordination.ts: on Windows the lockfile
is ignored; a present and valid lockfile whose leader completes
authentication makes this process a follower (dummy server, never-resolving
`waitForAuthCode`, `skipBrowserAuth := true`); in every other case the
process becomes the leader (own callback server, event-driven
`waitForAuthCode`, `skipBrowserAuth := false`), deleting the stale or
unsuccessful lockfile and creating its own. -/
def coordinateAuth (os : OperatingSystem) (lockfileContents : Option LockfileData)
    (now : Int) (probeSuccess : Option Bool) (fetchStatus : Option Int)
    (authCompleted : Bool) : CoordinateAuthResult :=
  let lockData :=
    match os with
    | .windows => none
    | _ => lockfileContents
  match lockData with
  | some l =>
      if isLockValid now l probeSuccess fetchStatus then
        if authCompleted then
          { usesDummyServer := true
            waitForAuthCodeBehavior := PromiseBehavior.neverResolves
            skipBrowserAuth := true }
        else
          { usesDummyServer := false
            waitForAuthCodeBehavior := PromiseBehavior.resolvesFromEvents
            skipBrowserAuth := false }
      else
        { usesDummyServer := false
          waitForAuthCodeBehavior := PromiseBehavior.resolvesFromEvents
          skipBrowserAuth := false }
  | none =>
      { usesDummyServer := false
        waitForAuthCodeBehavior := PromiseBehavior.resolvesFromEvents
        skipBrowserAuth := false }

/-! ## Helper lemmas -/

lemma transportEvent_cases (e : TransportEvent) :
    e = TransportEvent.clientOnClose ∨ e = TransportEvent.serverOnClose := by
  cases e
  · exact Or.inl rfl
  · exact Or.inr rfl

lemma trace_nil_of_counts_zero (t : List TransportEvent)
    (hc : t.count TransportEvent.clientOnClose = 0)
    (hs : t.count TransportEvent.serverOnClose = 0) : t = [] := by
  cases t with
  | nil => rfl
  | cons a t =>
      rcases transportEvent_cases a with h | h <;> subst h <;>
        simp [List.count_cons] at hc hs

/-- A trace in which each transport closes at most once has one of five
shapes. -/
lemma trace_enum (t : List TransportEvent)
    (hc : t.count TransportEvent.clientOnClose ≤ 1)
    (hs : t.count TransportEvent.serverOnClose ≤ 1) :
    t = [] ∨ t = [TransportEvent.clientOnClose] ∨ t = [TransportEvent.serverOnClose] ∨
      t = [TransportEvent.clientOnClose, TransportEvent.serverOnClose] ∨
      t = [TransportEvent.serverOnClose, TransportEvent.clientOnClose] := by
  cases t with
  | nil => exact Or.inl rfl
  | cons a t =>
      rcases transportEvent_cases a with ha | ha <;> subst ha
      · cases t with
        | nil => exact Or.inr (Or.inl rfl)
        | cons b t =>
            rcases transportEvent_cases b with hb | hb <;> subst hb
            · exfalso
              simp [List.count_cons] at hc
            · have h0 : t = [] := by
                refine trace_nil_of_counts_zero t ?_ ?_
                · simp [List.count_cons] at hc
                  omega
                · simp [List.count_cons] at hs
                  omega
              subst h0
              exact Or.inr (Or.inr (Or.inr (Or.inl rfl)))
      · cases t with
        | nil => exact Or.inr (Or.inr (Or.inl rfl))
        | cons b t =>
            rcases transportEvent_cases b with hb | hb <;> subst hb
            · have h0 : t = [] := by
                refine trace_nil_of_counts_zero t ?_ ?_
                · simp [List.count_cons] at hc
                  omega
                · simp [List.count_cons] at hs
                  omega
              subst h0
              exact Or.inr (Or.inr (Or.inr (Or.inr rfl)))
            · exfalso
              simp [List.count_cons] at hs

/-! ## Claim theorems (C1, C2) -/

/-- C1: for the proxy created by `mcpProxy`, over any serialized trace in
which each transport fires `onclose` at most once, the proxy issues at most
one `close()` call per transport and at most one in total (never a
double-close, and no closed-to-close-to-closed feedback loop), and whenever a
transport fires `onclose`, the opposite transport either receives exactly one
`close()` call from the proxy or has itself fired `onclose` (never a missing
close), and symmetrically. -/
theorem mcpProxy_close_exactly_once (t : List TransportEvent)
    (hc : t.count TransportEvent.clientOnClose ≤ 1)
    (hs : t.count TransportEvent.serverOnClose ≤ 1) :
    ((mcpProxyRun t).closeCallsToServer ≤ 1 ∧ (mcpProxyRun t).closeCallsToClient ≤ 1) ∧
    ((mcpProxyRun t).closeCallsToServer + (mcpProxyRun t).closeCallsToClient ≤ 1) ∧
    (TransportEvent.clientOnClose ∈ t →
      (mcpProxyRun t).closeCallsToServer = 1 ∨ TransportEvent.serverOnClose ∈ t) ∧
    (TransportEvent.serverOnClose ∈ t →
      (mcpProxyRun t).closeCallsToClient = 1 ∨ TransportEvent.clientOnClose ∈ t) := by
  rcases trace_enum t hc hs with h | h | h | h | h <;> subst h <;> decide

/-- Witness for C1 at the simultaneous-close trace: both transports fire
`onclose`, and the proxy issues exactly one `close()` call in total. -/
theorem mcpProxy_close_exactly_once_witness :
    ([TransportEvent.clientOnClose, TransportEvent.serverOnClose].count
        TransportEvent.clientOnClose ≤ 1) ∧
    ([TransportEvent.clientOnClose, TransportEvent.serverOnClose].count
        TransportEvent.serverOnClose ≤ 1) ∧
    (((mcpProxyRun [TransportEvent.clientOnClose, TransportEvent.serverOnClose]).closeCallsToServer ≤ 1 ∧
      (mcpProxyRun [TransportEvent.clientOnClose, TransportEvent.serverOnClose]).closeCallsToClient ≤ 1) ∧
    ((mcpProxyRun [TransportEvent.clientOnClose, TransportEvent.serverOnClose]).closeCallsToServer +
      (mcpProxyRun [TransportEvent.clientOnClose, TransportEvent.serverOnClose]).closeCallsToClient ≤ 1) ∧
    (TransportEvent.clientOnClose ∈ [TransportEvent.clientOnClose, TransportEvent.serverOnClose] →
      (mcpProxyRun [TransportEvent.clientOnClose, TransportEvent.serverOnClose]).closeCallsToServer = 1 ∨
        TransportEvent.serverOnClose ∈ [TransportEvent.clientOnClose, TransportEvent.serverOnClose]) ∧
    (TransportEvent.serverOnClose ∈ [TransportEvent.clientOnClose, TransportEvent.serverOnClose] →
      (mcpProxyRun [TransportEvent.clientOnClose, TransportEvent.serverOnClose]).closeCallsToClient = 1 ∨
        TransportEvent.clientOnClose ∈ [TransportEvent.clientOnClose, TransportEvent.serverOnClose])) :=
  ⟨by decide, by decide,
    mcpProxy_close_exactly_once
      [TransportEvent.clientOnClose, TransportEvent.serverOnClose]
      (by decide) (by decide)⟩

/-- C2: `isLockValid` returns `true` exactly when the record is at most 30
minutes old, the owning process is alive per the liveness probe, and the
`wait-for-auth?poll=false` request yielded HTTP status 200 or 202; any other
outcome (probe error, fetch timeout or error, unexpected status) yields
`false`; in particular a record older than 30 minutes is invalid regardless
of the other inputs. -/
theorem isLockValid_spec (now : Int) (lockData : LockfileData)
    (probeSuccess : Option Bool) (fetchStatus : Option Int) :
    (isLockValid now lockData probeSuccess fetchStatus = true ↔
      (now - lockData.timestamp ≤ MAX_LOCK_AGE ∧
        isPidRunning probeSuccess = true ∧
        ∃ status, fetchStatus = some status ∧ (status = 200 ∨ status = 202))) ∧
    (now - lockData.timestamp > MAX_LOCK_AGE →
      isLockValid now lockData probeSuccess fetchStatus = false) := by
  constructor
  · constructor
    · intro h
      unfold isLockValid at h
      split_ifs at h with h1 h2
      rcases fetchStatus with _ | status
      · exact absurd h (by simp)
      · refine ⟨by omega, ?_, status, rfl, ?_⟩
        · simpa using h2
        · simpa using h
    · rintro ⟨hle, hpid, status, hfs, hst⟩
      unfold isLockValid
      rw [if_neg (by omega), if_neg (by simp [hpid]), hfs]
      rcases hst with h | h <;> subst h <;> rfl
  · intro hage
    unfold isLockValid
    simp [hage]

/-! ## Callback server lemmas -/

lemma callbackServerRun_append (t : List CallbackEvent) (e : CallbackEvent) :
    callbackServerRun (t ++ [e]) = callbackServerStep (callbackServerRun t) e := by
  simp [callbackServerRun, List.foldl_append]

lemma callbackServerRun_append_cons (t1 t2 : List CallbackEvent) (e : CallbackEvent) :
    callbackServerRun (t1 ++ e :: t2) =
      t2.foldl callbackServerStep (callbackServerStep (callbackServerRun t1) e) := by
  simp [callbackServerRun, List.foldl_append]

lemma authCode_step_isSome (s : CallbackServerState) (e : CallbackEvent)
    (h : s.authCode.isSome) : (callbackServerStep s e).authCode.isSome := by
  rcases hA : s.authCode with _ | a
  · rw [hA] at h
    exact absurd h (by simp)
  · cases e with
    | waitForAuth reqId pollFalse =>
        simp [callbackServerStep, hA, sendResponse]
    | oauthCallback reqId code =>
        rcases code with _ | c
        · simp [callbackServerStep, sendResponse, hA]
        · by_cases hc : c = "" <;> simp [callbackServerStep, sendResponse, hc, hA]
    | longPollTimeout reqId =>
        simp only [callbackServerStep]
        split <;> simp [sendResponse, hA]

lemma authCode_foldl_isSome (t : List CallbackEvent) (s : CallbackServerState)
    (h : s.authCode.isSome) : (t.foldl callbackServerStep s).authCode.isSome := by
  induction t generalizing s with
  | nil => exact h
  | cons e t ih => exact ih _ (authCode_step_isSome s e h)

lemma authCode_after_callback (s : CallbackServerState) (reqId : Nat) (c : String)
    (hc : c ≠ "") :
    (callbackServerStep s (CallbackEvent.oauthCallback reqId (some c))).authCode = some c := by
  simp [callbackServerStep, hc, sendResponse]

lemma no200_before_signal_step (s : CallbackServerState) (e : CallbackEvent)
    (h : s.authCode = none → ∀ r ∈ s.responses, r.status ≠ 200) :
    (callbackServerStep s e).authCode = none →
      ∀ r ∈ (callbackServerStep s e).responses, r.status ≠ 200 := by
  intro hnone r hr
  cases e with
  | waitForAuth reqId pollFalse =>
      rcases hA : s.authCode with _ | a
      · by_cases hp : pollFalse
        · simp [callbackServerStep, hA, hp, sendResponse] at hr
          rcases hr with hr | hr
          · exact h hA r hr
          · simp [hr]
        · simp [callbackServerStep, hA, hp] at hr
          exact h hA r hr
      · simp [callbackServerStep, hA, sendResponse] at hnone
  | oauthCallback reqId code =>
      rcases code with _ | c
      · simp [callbackServerStep, sendResponse] at hr hnone
        rcases hr with hr | hr
        · exact h hnone r hr
        · simp [hr]
      · by_cases hc : c = ""
        · simp [callbackServerStep, hc, sendResponse] at hr hnone
          rcases hr with hr | hr
          · exact h hnone r hr
          · simp [hr]
        · rw [authCode_after_callback s reqId c hc] at hnone
          exact absurd hnone (by simp)
  | longPollTimeout reqId =>
      by_cases hp : reqId ∈ s.pending
      · simp [callbackServerStep, hp, sendResponse] at hr hnone
        rcases hr with hr | hr
        · exact h hnone r hr
        · simp [hr]
      · simp [callbackServerStep, hp] at hr hnone
        exact h hnone r hr

lemma no200_before_signal (t : List CallbackEvent) :
    (callbackServerRun t).authCode = none →
      ∀ r ∈ (callbackServerRun t).responses, r.status ≠ 200 := by
  suffices h : ∀ s : CallbackServerState,
      (s.authCode = none → ∀ r ∈ s.responses, r.status ≠ 200) →
      ((t.foldl callbackServerStep s).authCode = none →
        ∀ r ∈ (t.foldl callbackServerStep s).responses, r.status ≠ 200) by
    refine h callbackServerInit ?_
    intro _ r hr
    simp [callbackServerInit] at hr
  induction t with
  | nil => exact fun s hs => hs
  | cons e t ih => exact fun s hs => ih _ (no200_before_signal_step s e hs)

/-! ## Claim theorems (C3, C4, C5) -/

/-- C3: once the OAuth callback route has run with a valid (nonempty) code,
every subsequent `/wait-for-auth` request — with or without `poll=false` —
is answered 200 immediately; every long-poll waiter pending when the
callback ran is answered 200 by the promise broadcast (no missed signal);
and while no valid callback has occurred, no request has been answered 200
(no completion observed before the authoritative signal). -/
theorem waitForAuth_after_auth_completes (t1 t2 : List CallbackEvent)
    (cbId reqId : Nat) (c : String) (pollFalse : Bool) (hc : c ≠ "") :
    ((callbackServerRun ((t1 ++ CallbackEvent.oauthCallback cbId (some c) :: t2) ++
        [CallbackEvent.waitForAuth reqId pollFalse])).responses =
      (callbackServerRun (t1 ++ CallbackEvent.oauthCallback cbId (some c) :: t2)).responses ++
        [⟨reqId, 200, bodyAuthCompleted⟩]) ∧
    (∀ w ∈ (callbackServerRun t1).pending,
      (⟨w, 200, bodyAuthCompleted⟩ : OAuthCallbackResponse) ∈
        (callbackServerRun (t1 ++ [CallbackEvent.oauthCallback cbId (some c)])).responses) ∧
    ((callbackServerRun t1).authCode = none →
      ∀ r ∈ (callbackServerRun t1).responses, r.status ≠ 200) := by
  have hsome : (callbackServerRun
      (t1 ++ CallbackEvent.oauthCallback cbId (some c) :: t2)).authCode.isSome := by
    rw [callbackServerRun_append_cons]
    refine authCode_foldl_isSome t2 _ ?_
    rw [authCode_after_callback _ _ _ hc]
    simp
  refine ⟨?_, ?_, no200_before_signal t1⟩
  · rw [callbackServerRun_append]
    rcases hA : (callbackServerRun
        (t1 ++ CallbackEvent.oauthCallback cbId (some c) :: t2)).authCode with _ | a
    · rw [hA] at hsome
      exact absurd hsome (by simp)
    · simp [callbackServerStep, hA, sendResponse]
  · intro w hw
    rw [callbackServerRun_append]
    simp [callbackServerStep, hc, sendResponse]
    exact Or.inr (Or.inr hw)

/-- Witness for C3 at a concrete trace: one waiter long-polls before the
callback, the callback delivers code `abc`, and a later poll gets 200. -/
theorem waitForAuth_after_auth_completes_witness :
    ("abc" ≠ "") ∧
    (((callbackServerRun (([CallbackEvent.waitForAuth 1 false] ++
        CallbackEvent.oauthCallback 2 (some "abc") :: []) ++
        [CallbackEvent.waitForAuth 3 true])).responses =
      (callbackServerRun ([CallbackEvent.waitForAuth 1 false] ++
        CallbackEvent.oauthCallback 2 (some "abc") :: [])).responses ++
        [⟨3, 200, bodyAuthCompleted⟩]) ∧
    (∀ w ∈ (callbackServerRun [CallbackEvent.waitForAuth 1 false]).pending,
      (⟨w, 200, bodyAuthCompleted⟩ : OAuthCallbackResponse) ∈
        (callbackServerRun ([CallbackEvent.waitForAuth 1 false] ++
          [CallbackEvent.oauthCallback 2 (some "abc")])).responses) ∧
    ((callbackServerRun [CallbackEvent.waitForAuth 1 false]).authCode = none →
      ∀ r ∈ (callbackServerRun [CallbackEvent.waitForAuth 1 false]).responses,
        r.status ≠ 200)) :=
  ⟨by decide,
    waitForAuth_after_auth_completes [CallbackEvent.waitForAuth 1 false] []
      2 3 "abc" true (by decide)⟩

/-- C4 counterexample: a second call to the OAuth callback route is not
ignored.  After a first callback with code `codeA`, a second callback with
code `codeB` overwrites the recorded code (`authCode` becomes `codeB`) and
emits the `auth-code-received` notification a second time (`emitCount = 2`),
while the completion promise keeps the first code. -/
theorem oauthCallback_second_call_counterexample :
    (callbackServerRun [CallbackEvent.oauthCallback 1 (some "codeA")]).authCode =
      some "codeA" ∧
    (callbackServerRun [CallbackEvent.oauthCallback 1 (some "codeA"),
        CallbackEvent.oauthCallback 2 (some "codeB")]).authCode = some "codeB" ∧
    (callbackServerRun [CallbackEvent.oauthCallback 1 (some "codeA"),
        CallbackEvent.oauthCallback 2 (some "codeB")]).emitCount = 2 ∧
    (callbackServerRun [CallbackEvent.oauthCallback 1 (some "codeA"),
        CallbackEvent.oauthCallback 2 (some "codeB")]).promiseResolved =
      some "codeA" :=
  ⟨rfl, rfl, rfl, rfl⟩

/-- C4 (amended): the first callback call carrying a nonempty code records
the code, resolves the completion promise exactly once with that code, and
returns the success page; a second callback call returns the same success
response and never re-resolves the promise (it keeps the first code), but it
is not fully ignored: it overwrites the recorded code and emits the
`auth-code-received` notification again; a call with a missing or empty code
parameter only sends a 400 error response and changes nothing else. -/
theorem oauthCallback_route_spec (t : List CallbackEvent) (reqId : Nat)
    (c : String) (hc : c ≠ "") :
    ((callbackServerRun t).promiseResolved = none →
      ((callbackServerStep (callbackServerRun t)
          (CallbackEvent.oauthCallback reqId (some c))).authCode = some c ∧
       (callbackServerStep (callbackServerRun t)
          (CallbackEvent.oauthCallback reqId (some c))).promiseResolved = some c ∧
       (⟨reqId, 200, bodyAuthSuccess⟩ : OAuthCallbackResponse) ∈
         (callbackServerStep (callbackServerRun t)
           (CallbackEvent.oauthCallback reqId (some c))).responses ∧
       (callbackServerStep (callbackServerRun t)
          (CallbackEvent.oauthCallback reqId (some c))).emitCount =
         (callbackServerRun t).emitCount + 1)) ∧
    (∀ c0, (callbackServerRun t).promiseResolved = some c0 →
      ((callbackServerStep (callbackServerRun t)
          (CallbackEvent.oauthCallback reqId (some c))).promiseResolved = some c0 ∧
       (callbackServerStep (callbackServerRun t)
          (CallbackEvent.oauthCallback reqId (some c))).authCode = some c ∧
       (⟨reqId, 200, bodyAuthSuccess⟩ : OAuthCallbackResponse) ∈
         (callbackServerStep (callbackServerRun t)
           (CallbackEvent.oauthCallback reqId (some c))).responses ∧
       (callbackServerStep (callbackServerRun t)
          (CallbackEvent.oauthCallback reqId (some c))).emitCount =
         (callbackServerRun t).emitCount + 1)) ∧
    (callbackServerStep (callbackServerRun t) (CallbackEvent.oauthCallback reqId none) =
      sendResponse (callbackServerRun t) reqId 400 bodyNoCode) ∧
    (callbackServerStep (callbackServerRun t) (CallbackEvent.oauthCallback reqId (some "")) =
      sendResponse (callbackServerRun t) reqId 400 bodyNoCode) := by
  refine ⟨?_, ?_, rfl, ?_⟩
  · intro hres
    simp [callbackServerStep, hc, sendResponse, hres]
  · intro c0 hres
    simp [callbackServerStep, hc, sendResponse, hres]
  · simp [callbackServerStep, sendResponse]

/-- Witness for C4 (amended) on a fresh server with request id 1 and code
`abc`. -/
theorem oauthCallback_route_spec_witness :
    ("abc" ≠ "") ∧
    (((callbackServerRun []).promiseResolved = none →
      ((callbackServerStep (callbackServerRun [])
          (CallbackEvent.oauthCallback 1 (some "abc"))).authCode = some "abc" ∧
       (callbackServerStep (callbackServerRun [])
          (CallbackEvent.oauthCallback 1 (some "abc"))).promiseResolved = some "abc" ∧
       (⟨1, 200, bodyAuthSuccess⟩ : OAuthCallbackResponse) ∈
         (callbackServerStep (callbackServerRun [])
           (CallbackEvent.oauthCallback 1 (some "abc"))).responses ∧
       (callbackServerStep (callbackServerRun [])
          (CallbackEvent.oauthCallback 1 (some "abc"))).emitCount =
         (callbackServerRun []).emitCount + 1)) ∧
    (∀ c0, (callbackServerRun []).promiseResolved = some c0 →
      ((callbackServerStep (callbackServerRun [])
          (CallbackEvent.oauthCallback 1 (some "abc"))).promiseResolved = some c0 ∧
       (callbackServerStep (callbackServerRun [])
          (CallbackEvent.oauthCallback 1 (some "abc"))).authCode = some "abc" ∧
       (⟨1, 200, bodyAuthSuccess⟩ : OAuthCallbackResponse) ∈
         (callbackServerStep (callbackServerRun [])
           (CallbackEvent.oauthCallback 1 (some "abc"))).responses ∧
       (callbackServerStep (callbackServerRun [])
          (CallbackEvent.oauthCallback 1 (some "abc"))).emitCount =
         (callbackServerRun []).emitCount + 1)) ∧
    (callbackServerStep (callbackServerRun []) (CallbackEvent.oauthCallback 1 none) =
      sendResponse (callbackServerRun []) 1 400 bodyNoCode) ∧
    (callbackServerStep (callbackServerRun []) (CallbackEvent.oauthCallback 1 (some "")) =
      sendResponse (callbackServerRun []) 1 400 bodyNoCode)) :=
  ⟨by decide, oauthCallback_route_spec [] 1 "abc" (by decide)⟩

/-- C5: a `/wait-for-auth` request with `poll=false` never joins the pending
long-poll set (it never blocks) and is answered immediately with exactly one
response: 200 if the authorization code has been received, otherwise 202. -/
theorem waitForAuth_pollFalse_immediate (t : List CallbackEvent) (reqId : Nat) :
    ((callbackServerStep (callbackServerRun t)
        (CallbackEvent.waitForAuth reqId true)).pending =
      (callbackServerRun t).pending) ∧
    ((callbackServerStep (callbackServerRun t)
        (CallbackEvent.waitForAuth reqId true)).responses =
      (callbackServerRun t).responses ++
        [if (callbackServerRun t).authCode.isSome then
            (⟨reqId, 200, bodyAuthCompleted⟩ : OAuthCallbackResponse)
          else ⟨reqId, 202, bodyAuthInProgress⟩]) := by
  rcases hA : (callbackServerRun t).authCode with _ | a <;>
    simp [callbackServerStep, hA, sendResponse]

/-! ## Credential store lemmas -/

lemma fsRead_fsWrite (store : ConfigStore) (path : String) (content : FileContent) :
    fsRead (fsWrite store path content) path = some content := by
  unfold fsRead fsWrite
  rw [List.find?_cons_of_pos _ (by simp)]
  rfl

lemma parse_encode_tokens (t : OAuthTokens) :
    parseOAuthTokens (encodeOAuthTokens t) = some t := by
  rcases t with ⟨a, ty, _ | ei, _ | sc, _ | rt⟩ <;> rfl

lemma parse_encode_clientInformation (ci : OAuthClientInformation) :
    parseOAuthClientInformation (encodeOAuthClientInformation ci) = some ci := by
  rcases ci with ⟨cid, _ | cs, _ | ia, _ | ea⟩ <;> rfl

/-! ## Claim theorems (C6, C7, C8) -/

/-- C6 counterexample: reading the code verifier does not consume it.  After
saving verifier `verifier123` for fingerprint `hashX` (and after the code
exchange has read it once — reads leave the store unchanged), a further call
to `codeVerifier()` still succeeds with the same value instead of raising a
state-corruption error. -/
theorem codeVerifier_second_read_counterexample :
    (codeVerifier (saveCodeVerifier ⟨[]⟩ "hashX" "verifier123") "hashX" =
      Except.ok "verifier123") ∧
    (codeVerifier (saveCodeVerifier ⟨[]⟩ "hashX" "verifier123") "hashX" ≠
      Except.error "No code verifier saved for session") :=
  ⟨rfl, fun h => nomatch h⟩

/-- C6 (amended): the persisted PKCE code verifier is not single-use in the
code: `codeVerifier()` is a pure read that never deletes or invalidates the
stored value, so any read — in particular a second read after the code
exchange consumed the value once — succeeds with the same stored string; the
read is an error (the distinct missing-verifier error of C7) only when the
verifier file is absent. -/
theorem codeVerifier_reads_not_consuming (store : ConfigStore)
    (serverUrlHash v : String)
    (h : fsRead store (getConfigFilePath serverUrlHash ("code_verifier.txt")) =
      some (FileContent.textFile v)) :
    codeVerifier store serverUrlHash = Except.ok v := by
  unfold codeVerifier readTextFile
  rw [h]

/-- Witness for C6 (amended): read back verifier `v123` for hash `h0`. -/
theorem codeVerifier_reads_not_consuming_witness :
    (fsRead (saveCodeVerifier ⟨[]⟩ "h0" "v123")
        (getConfigFilePath "h0" ("code_verifier.txt")) =
      some (FileContent.textFile "v123")) ∧
    codeVerifier (saveCodeVerifier ⟨[]⟩ "h0" "v123") "h0" = Except.ok "v123" :=
  ⟨rfl, codeVerifier_reads_not_consuming (saveCodeVerifier ⟨[]⟩ "h0" "v123")
    "h0" "v123" rfl⟩

/-- C7: when no code verifier is stored for the fingerprint (e.g. the file
was deleted), `codeVerifier()` fails with the distinct message
`No code verifier saved for session`, not a generic read error. -/
theorem codeVerifier_missing_distinct_error (store : ConfigStore)
    (serverUrlHash : String)
    (h : fsRead store (getConfigFilePath serverUrlHash ("code_verifier.txt")) =
      none) :
    codeVerifier store serverUrlHash =
      Except.error "No code verifier saved for session" := by
  unfold codeVerifier readTextFile
  rw [h]
  rfl

/-- Witness for C7 on the empty store. -/
theorem codeVerifier_missing_distinct_error_witness :
    (fsRead ⟨[]⟩ (getConfigFilePath "h0" ("code_verifier.txt")) = none) ∧
    codeVerifier ⟨[]⟩ "h0" = Except.error "No code verifier saved for session" :=
  ⟨rfl, codeVerifier_missing_distinct_error ⟨[]⟩ "h0" rfl⟩

/-- C8: save-then-read round trips are the identity for every
schema-accepted value: `saveTokens` then `tokens()` returns the same
`OAuthTokens` field for field, `saveClientInformation` then
`clientInformation()` the same `OAuthClientInformation`, and
`saveCodeVerifier` then `codeVerifier()` the same verifier string. -/
theorem provider_persistence_roundtrip (store : ConfigStore)
    (serverUrlHash : String) (t : OAuthTokens) (ci : OAuthClientInformation)
    (v : String) :
    tokens (saveTokens store serverUrlHash t) serverUrlHash = some t ∧
    clientInformation (saveClientInformation store serverUrlHash ci)
      serverUrlHash = some ci ∧
    codeVerifier (saveCodeVerifier store serverUrlHash v) serverUrlHash =
      Except.ok v := by
  refine ⟨?_, ?_, ?_⟩
  · unfold tokens saveTokens readJsonFile writeJsonFile
    rw [fsRead_fsWrite]
    exact parse_encode_tokens t
  · unfold clientInformation saveClientInformation readJsonFile writeJsonFile
    rw [fsRead_fsWrite]
    exact parse_encode_clientInformation ci
  · unfold codeVerifier saveCodeVerifier readTextFile writeTextFile
    rw [fsRead_fsWrite]

/-! ## Claim theorems (C9, C10) -/

/-- C9 counterexample: the claim exempts every URL whose host is loopback
from the HTTPS requirement, but the source only exempts `http:` URLs with
hostname `localhost` or `127.0.0.1`.  `ftp://localhost` has a loopback host,
yet `parseCommandLineArgs` rejects it (and without `--allow-http` an IPv6
loopback `http://[::1]:8080` is likewise rejected). -/
theorem parseCommandLineArgs_loopback_scheme_counterexample :
    (parseCommandLineArgs ["ftp://localhost"] =
      Except.error CommandLineError.disallowedHttp) ∧
    ((parseUrl ("ftp://localhost")).map UrlParts.hostname = some "localhost") ∧
    (parseCommandLineArgs ["http://[::1]:8080"] =
      Except.error CommandLineError.disallowedHttp) :=
  ⟨rfl, rfl, rfl⟩

/-- C9 (amended): whenever the argument validation reaches the URL check
(no help flag, a nonempty first remaining argument that parses as a URL),
`parseCommandLineArgs` rejects with the non-HTTPS error exactly when the URL
is not HTTPS, is not an HTTP URL whose hostname is literally `localhost` or
`127.0.0.1`, and `--allow-http` was not passed; the rejection happens in the
pure validation phase, before any port probing or network activity. -/
theorem parseCommandLineArgs_url_validation (args args2 : List String)
    (headers : List (String × String)) (u : UrlParts)
    (hhelp1 : args.contains ("--help") = false)
    (hhelp2 : args.contains ("-h") = false)
    (hex : extractHeaders args = (args2, headers))
    (hnonempty : args2.headD "" ≠ "")
    (hparse : parseUrl (args2.headD "") = some u) :
    parseCommandLineArgs args = Except.error CommandLineError.disallowedHttp ↔
      ¬(u.scheme = "https" ∨
        (u.scheme = "http" ∧ (u.hostname = "localhost" ∨ u.hostname = "127.0.0.1")) ∨
        args2.contains ("--allow-http") = true) := by
  have hmem1 : "--help" ∉ args := by simpa using hhelp1
  have hmem2 : "-h" ∉ args := by simpa using hhelp2
  have hhd : args2.head?.getD "" = args2.headD "" := by simp
  have hn2 : ¬(args2.head?.getD "" = "") := by
    rw [hhd]
    exact hnonempty
  have hparse2 : parseUrl (args2.head?.getD "") = some u := by
    rw [hhd]
    exact hparse
  by_cases hcond : (u.scheme == "https" ||
      ((u.hostname == "localhost" || u.hostname == "127.0.0.1") &&
        u.scheme == "http") || args2.contains ("--allow-http")) = true
  · have hP : (u.scheme = "https" ∨
        (u.hostname = "localhost" ∨ u.hostname = "127.0.0.1") ∧ u.scheme = "http") ∨
        "--allow-http" ∈ args2 := by simpa using hcond
    constructor
    · intro hres
      exfalso
      have hCfalse : ¬((¬u.scheme = "https" ∧
          (¬u.hostname = "localhost" ∧ ¬u.hostname = "127.0.0.1" ∨
            ¬u.scheme = "http")) ∧ "--allow-http" ∉ args2) := by tauto
      simp [parseCommandLineArgs, hmem1, hmem2, hex, hn2, hparse2, hCfalse] at hres
      rcases hget : args2[1]? with _ | a <;> rw [hget] at hres
      · simp at hres
      · by_cases ha : a = ""
        · simp [ha] at hres
        · simp [ha] at hres
          rcases hp : parseIntJs a with _ | p <;> rw [hp] at hres <;>
            simp at hres
    · intro hnot
      exfalso
      apply hnot
      have hmem3 : args2.contains ("--allow-http") = true ∨
          "--allow-http" ∉ args2 := by
        by_cases hm : "--allow-http" ∈ args2
        · exact Or.inl (by simpa using hm)
        · exact Or.inr hm
      tauto
  · have hnP : ¬((u.scheme = "https" ∨
        (u.hostname = "localhost" ∨ u.hostname = "127.0.0.1") ∧ u.scheme = "http") ∨
        "--allow-http" ∈ args2) := by simpa using hcond
    constructor
    · intro _
      intro hp
      apply hnP
      have hmem3 : args2.contains ("--allow-http") = true →
          "--allow-http" ∈ args2 := fun hm => by simpa using hm
      tauto
    · intro _
      simp [parseCommandLineArgs, hmem1, hmem2, hex, hn2, hparse2]
      split <;> tauto

/-- Witness for C9 (amended) at `ftp://localhost`: the validation reaches
the URL check and rejects, and the amended acceptance condition is indeed
violated. -/
theorem parseCommandLineArgs_url_validation_witness :
    ((["ftp://localhost"] : List String).contains ("--help") = false) ∧
    ((["ftp://localhost"] : List String).contains ("-h") = false) ∧
    (extractHeaders ["ftp://localhost"] = (["ftp://localhost"], [])) ∧
    ((["ftp://localhost"] : List String).headD "" ≠ "") ∧
    (parseUrl ((["ftp://localhost"] : List String).headD "") =
      some { scheme := "ftp", hostname := "localhost" }) ∧
    (parseCommandLineArgs ["ftp://localhost"] =
        Except.error CommandLineError.disallowedHttp ↔
      ¬(({ scheme := "ftp", hostname := "localhost" } : UrlParts).scheme = "https" ∨
        (({ scheme := "ftp", hostname := "localhost" } : UrlParts).scheme = "http" ∧
          (({ scheme := "ftp", hostname := "localhost" } : UrlParts).hostname = "localhost" ∨
           ({ scheme := "ftp", hostname := "localhost" } : UrlParts).hostname = "127.0.0.1")) ∨
        (["ftp://localhost"] : List String).contains ("--allow-http") = true)) :=
  ⟨rfl, rfl, rfl, by decide, rfl,
    parseCommandLineArgs_url_validation ["ftp://localhost"] ["ftp://localhost"]
      [] { scheme := "ftp", hostname := "localhost" }
      rfl rfl rfl (by decide) rfl⟩

/-- C10: when a valid lockfile exists (on a non-Windows platform) and
`waitForAuthentication` reports that the other instance completed
authentication, `coordinateAuth` returns the follower result:
`skipBrowserAuth` is `true`, the server is the dummy server, and the
returned `waitForAuthCode` yields a promise that is never fulfilled, so a
follower awaiting it blocks forever instead of receiving a code. -/
theorem coordinateAuth_follower_blocks_forever (os : OperatingSystem)
    (l : LockfileData) (now : Int) (probeSuccess : Option Bool)
    (fetchStatus : Option Int) (hos : os ≠ OperatingSystem.windows)
    (hvalid : isLockValid now l probeSuccess fetchStatus = true) :
    (coordinateAuth os (some l) now probeSuccess fetchStatus true).skipBrowserAuth =
      true ∧
    (coordinateAuth os (some l) now probeSuccess fetchStatus
        true).waitForAuthCodeBehavior = PromiseBehavior.neverResolves ∧
    (coordinateAuth os (some l) now probeSuccess fetchStatus true).usesDummyServer =
      true := by
  cases os with
  | windows => exact absurd rfl hos
  | darwin => simp [coordinateAuth, hvalid]
  | linux => simp [coordinateAuth, hvalid]

/-- Witness for C10: a fresh valid lock owned by live pid 100 on port 4001,
probe and status positive. -/
theorem coordinateAuth_follower_blocks_forever_witness :
    (OperatingSystem.linux ≠ OperatingSystem.windows) ∧
    (isLockValid 0 ⟨100, 4001, 0⟩ (some true) (some 200) = true) ∧
    ((coordinateAuth OperatingSystem.linux (some ⟨100, 4001, 0⟩) 0 (some true)
        (some 200) true).skipBrowserAuth = true ∧
     (coordinateAuth OperatingSystem.linux (some ⟨100, 4001, 0⟩) 0 (some true)
        (some 200) true).waitForAuthCodeBehavior = PromiseBehavior.neverResolves ∧
     (coordinateAuth OperatingSystem.linux (some ⟨100, 4001, 0⟩) 0 (some true)
        (some 200) true).usesDummyServer = true) :=
  ⟨by decide, by decide,
    coordinateAuth_follower_blocks_forever OperatingSystem.linux
      ⟨100, 4001, 0⟩ 0 (some true) (some 200) (by decide) (by decide)⟩
